import Mathlib

/-!
Verification of the simulation core of `volatility_impact_on_returns2.ipynb`.

The notebook's computational core consists of:
  * `generate_return_rates(return_mean, return_std, years)` — the Return
    Sampler, `return_mean + return_std * np.random.randn(years)`;
  * `calculate_fund_returns(contribution_per_year, returns_by_year,
    starting_principal=0)` — the Accumulator loop;
  * `make_mutual_fund(return_mean, return_std, years, yearly_addition)` —
    the Fund Model composing the two;
  * the trial-runner cells `[get_fundN_returns()[-1] for i in range(num_trials)]`;
  * the reporter cells `sum(batch) / num_trials` and
    `len([i for i in batch if i >= t]) / num_trials`.

We embed the arithmetic over `ℚ` (exact arithmetic; the notebook uses
floats but every claim here is about the algebraic algorithm, not float
rounding).  Randomness is abstracted as an explicit noise stream
`noise : ℕ → ℚ` standing for the i.i.d. standard-normal draws that
`np.random.randn` produces; `randn years noise` models the numpy call,
including the `ValueError: negative dimensions are not allowed` it raises
when `years < 0`.  Python expressions that can raise are embedded in
`Except String`.
-/

/-- Model of `np.random.randn(years)` applied to an explicit draw stream.
For a nonnegative `years` it yields the first `years` draws of the stream;
for a negative `years` numpy raises `ValueError`. -/
def randn (years : Int) (noise : ℕ → ℚ) : Except String (List ℚ) :=
  if years < 0 then
    .error "negative dimensions are not allowed"
  else
    .ok ((List.range years.toNat).map noise)

/-- Embedding of `generate_return_rates(return_mean, return_std, years)`:
`return_mean + return_std * np.random.randn(years)` (numpy broadcasting
applies the affine map elementwise). -/
def generate_return_rates (return_mean return_std : ℚ) (years : Int)
    (noise : ℕ → ℚ) : Except String (List ℚ) :=
  (randn years noise).map (fun zs => zs.map (fun z => return_mean + return_std * z))

/-- Loop body of `calculate_fund_returns`: iterate over `returns_by_year`
carrying `principal`, each year first adding the contribution, then applying
the growth multiplier, then appending the new principal. -/
def calculate_fund_returns_loop (contribution_per_year : ℚ) :
    List ℚ → ℚ → List ℚ
  | [], _ => []
  | return_rate :: rest, principal =>
    let principal2 := (principal + contribution_per_year) * (1 + return_rate)
    principal2 :: calculate_fund_returns_loop contribution_per_year rest principal2

/-- Embedding of `calculate_fund_returns(contribution_per_year,
returns_by_year, starting_principal=0)`.  The Python default
`starting_principal=0` is made explicit at call sites. -/
def calculate_fund_returns (contribution_per_year : ℚ)
    (returns_by_year : List ℚ) (starting_principal : ℚ) : List ℚ :=
  calculate_fund_returns_loop contribution_per_year returns_by_year starting_principal

/-- Embedding of `make_mutual_fund(return_mean, return_std, years,
yearly_addition)`: sample, divide each sampled percentage by 100, delegate
to the Accumulator with the Python-default starting principal 0. -/
def make_mutual_fund (return_mean return_std : ℚ) (years : Int)
    (yearly_addition : ℚ) (noise : ℕ → ℚ) : Except String (List ℚ) := do
  let sampled ← generate_return_rates return_mean return_std years noise
  let fund_return_rates := sampled.map (fun percent => percent / 100)
  pure (calculate_fund_returns yearly_addition fund_return_rates 0)

/-- Model of the Python expression `trajectory[-1]`: the last element, or
an `IndexError: list index out of range` on an empty list. -/
def last_value (trajectory : List ℚ) : Except String ℚ :=
  match trajectory.getLast? with
  | some v => .ok v
  | none => .error "list index out of range"

/-- Embedding of the trial-runner cell
`[get_fund_returns()[-1] for i in range(num_trials)]`: run `num_trials`
independent trials (indexed so each can draw fresh randomness) and keep
each trajectory's final value.  `range` of a nonpositive bound is empty. -/
def run_trials (trial : ℕ → Except String (List ℚ)) (num_trials : Int) :
    Except String (List ℚ) :=
  (List.range num_trials.toNat).mapM (fun i => do
    let trajectory ← trial i
    last_value trajectory)

/-- Embedding of the expected-return reporter cell
`sum(batch) / num_trials`. -/
def expected_value (batch : List ℚ) (num_trials : Int) : ℚ :=
  batch.sum / (num_trials : ℚ)

/-- Embedding of the threshold-probability reporter cell
`len([i for i in batch if i >= threshold]) / num_trials`. -/
def probability (batch : List ℚ) (threshold : ℚ) (num_trials : Int) : ℚ :=
  ((batch.filter (fun v => decide (threshold ≤ v))).length : ℚ) / (num_trials : ℚ)

/-- Specification-side recurrence for the trajectory: `v 0 = p` and
`v (i+1) = (v i + c) * (1 + r_(i+1))`, with `r_(i+1)` the `i`-th element of
the returns list. -/
def fund_value_rec (c p : ℚ) (rs : List ℚ) : ℕ → ℚ
  | 0 => p
  | i + 1 => (fund_value_rec c p rs i + c) * (1 + rs.getD i 0)

/-- Stepping the recurrence once matches restarting it from the
post-first-year principal. -/
lemma fund_value_rec_cons (c p r : ℚ) (rest : List ℚ) (i : ℕ) :
    fund_value_rec c p (r :: rest) (i + 1) =
      fund_value_rec c ((p + c) * (1 + r)) rest i := by
  induction i with
  | zero => simp [fund_value_rec]
  | succ i ih =>
    have step : fund_value_rec c p (r :: rest) (i + 1 + 1)
        = (fund_value_rec c p (r :: rest) (i + 1) + c) * (1 + (r :: rest).getD (i + 1) 0) := rfl
    rw [step, ih, List.getD_cons_succ]
    rfl

/-- The accumulator loop always returns one value per input return. -/
lemma calculate_fund_returns_loop_length (c : ℚ) (rs : List ℚ) (p : ℚ) :
    (calculate_fund_returns_loop c rs p).length = rs.length := by
  induction rs generalizing p with
  | nil => rfl
  | cons r rest ih => simp [calculate_fund_returns_loop, ih]

/-- Specification-side restatement of the expected-value reporter: the
arithmetic mean, sum of values divided by num_trials. -/
def mean_spec (batch : List ℚ) (num_trials : Int) : ℚ :=
  batch.sum / (num_trials : ℚ)

/-- Specification-side restatement of the threshold-probability reporter:
the count of trial values greater than or equal to the threshold, divided
by num_trials. -/
def probability_spec (batch : List ℚ) (threshold : ℚ) (num_trials : Int) : ℚ :=
  ((batch.countP (fun v => decide (threshold ≤ v))) : ℚ) / (num_trials : ℚ)

/-- C1: the accumulator produces exactly the trajectory `v_1 .. v_n` of the
recurrence `v_0 = p`, `v_(i+1) = (v_i + c) * (1 + r_(i+1))` (contribution
added before the year's multiplier), appended in year order. -/
theorem c1_accumulator_recurrence (c p : ℚ) (rs : List ℚ) :
    calculate_fund_returns c rs p
      = (List.range rs.length).map (fun i => fund_value_rec c p rs (i + 1)) := by
  unfold calculate_fund_returns
  induction rs generalizing p with
  | nil => rfl
  | cons r rest ih =>
    show ((p + c) * (1 + r)) :: calculate_fund_returns_loop c rest ((p + c) * (1 + r))
        = (List.range (r :: rest).length).map (fun i => fund_value_rec c p (r :: rest) (i + 1))
    rw [List.length_cons, List.range_succ_eq_map, List.map_cons, List.map_map, ih]
    refine List.cons_eq_cons.mpr ⟨by simp [fund_value_rec], ?_⟩
    refine List.map_congr_left (fun i _ => ?_)
    simpa using (fund_value_rec_cons c p r rest (i + 1)).symm

/-- C2: the reported summary agrees with the spec's arithmetic-mean and
tie-inclusive threshold-count formulas. -/
theorem c2_reporter_formulas (batch : List ℚ) (t : ℚ) (num_trials : Int) :
    expected_value batch num_trials = mean_spec batch num_trials ∧
    probability batch t num_trials = probability_spec batch t num_trials := by
  refine ⟨rfl, ?_⟩
  unfold probability probability_spec
  rw [List.countP_eq_length_filter]

/-- C4: pure compounding check, contribution 0, two years of 10% growth on
a principal of 1000 yields exactly [1100, 1210]. -/
theorem c4_pure_compounding :
    calculate_fund_returns 0 [1/10, 1/10] 1000 = [1100, 1210] := by
  norm_num [calculate_fund_returns, calculate_fund_returns_loop]

/-- C8: a −100% return wipes out that year's 100 contribution exactly,
yielding the trajectory [0]. -/
theorem c8_total_loss :
    calculate_fund_returns 100 [-1] 0 = [0] := by
  norm_num [calculate_fund_returns, calculate_fund_returns_loop]

/-- C5: trajectory length always equals the length of the returns sequence
(so an empty returns sequence yields an empty trajectory), and any
successfully sampled return sequence for a valid nonnegative `years` has
length `years`. -/
theorem c5_length_invariants (c p : ℚ) (rs : List ℚ)
    (mean std : ℚ) (years : Int) (noise : ℕ → ℚ) (seq : List ℚ)
    (hyears : 0 ≤ years)
    (hok : generate_return_rates mean std years noise = .ok seq) :
    (calculate_fund_returns c rs p).length = rs.length ∧
    calculate_fund_returns c [] p = [] ∧
    (seq.length : Int) = years := by
  refine ⟨calculate_fund_returns_loop_length c rs p, rfl, ?_⟩
  unfold generate_return_rates randn at hok
  rw [if_neg (not_lt.mpr hyears)] at hok
  obtain rfl : ((List.range years.toNat).map noise).map
      (fun z => mean + std * z) = seq := by
    simpa [Except.map] using hok
  simp [Int.toNat_of_nonneg hyears]

/-- C5 witness at concrete inputs. -/
theorem c5_length_invariants_witness :
    (calculate_fund_returns 1 [0, 0] 0).length = 2 ∧
    calculate_fund_returns 1 [] 0 = [] ∧
    ((3 : ℚ) ≤ 3 ∧ generate_return_rates 7 2 3 (fun _ => 0) = .ok [7, 7, 7]) := by
  have h := c5_length_invariants 1 0 [0, 0] 7 2 3 (fun _ => 0) [7, 7, 7]
    (by norm_num)
    (by norm_num [generate_return_rates, randn, Except.map, List.range_succ,
      Int.toNat_ofNat, List.replicate])
  exact ⟨h.1, h.2.1, le_refl 3,
    by norm_num [generate_return_rates, randn, Except.map, List.range_succ,
      Int.toNat_ofNat, List.replicate]⟩

/-- C6: the fund model is exactly the accumulator applied to the sampled
percentages each divided by 100, with contribution `yearly_addition` and
starting principal 0. -/
theorem c6_fund_model_composition (mean std : ℚ) (years : Int)
    (yearly_addition : ℚ) (noise : ℕ → ℚ) (seq : List ℚ)
    (hok : generate_return_rates mean std years noise = .ok seq) :
    make_mutual_fund mean std years yearly_addition noise
      = .ok (calculate_fund_returns yearly_addition
          (seq.map (fun percent => percent / 100)) 0) := by
  unfold make_mutual_fund
  rw [hok]
  rfl

/-- C6 witness at concrete inputs. -/
theorem c6_fund_model_composition_witness :
    generate_return_rates 10 0 1 (fun _ => 0) = .ok [10] ∧
    make_mutual_fund 10 0 1 5500 (fun _ => 0)
      = .ok (calculate_fund_returns 5500 ([10].map (fun percent => percent / 100)) 0) := by
  have hok : generate_return_rates 10 0 1 (fun _ => 0) = .ok [10] := by
    norm_num [generate_return_rates, randn, Except.map, List.range_succ,
      Int.toNat_ofNat, List.replicate]
  exact ⟨hok, c6_fund_model_composition 10 0 1 5500 (fun _ => 0) [10] hok⟩

/-- C10: the accumulator is homogeneous of degree one in the cash amounts:
scaling the contribution and the starting principal by `k` scales every
trajectory value by `k`. -/
theorem c10_homogeneity (c p k : ℚ) (rs : List ℚ) :
    calculate_fund_returns (k * c) rs (k * p)
      = (calculate_fund_returns c rs p).map (fun v => k * v) := by
  unfold calculate_fund_returns
  induction rs generalizing p with
  | nil => rfl
  | cons r rest ih =>
    show ((k * p + k * c) * (1 + r))
          :: calculate_fund_returns_loop (k * c) rest ((k * p + k * c) * (1 + r))
        = (k * ((p + c) * (1 + r)))
          :: (calculate_fund_returns_loop c rest ((p + c) * (1 + r))).map (fun v => k * v)
    have hk : (k * p + k * c) * (1 + r) = k * ((p + c) * (1 + r)) := by ring
    rw [hk, ih]

/-- C7: for a batch whose size matches num_trials, the goal-attainment
probability is antitone in the threshold and always lies in [0, 1]. -/
theorem c7_probability_monotone_bounded (batch : List ℚ) (num_trials : Int)
    (t1 t2 t : ℚ) (hlen : (batch.length : Int) = num_trials)
    (hpos : 0 < num_trials) (ht : t1 ≤ t2) :
    probability batch t2 num_trials ≤ probability batch t1 num_trials ∧
    0 ≤ probability batch t num_trials ∧ probability batch t num_trials ≤ 1 := by
  have hq : (0 : ℚ) < (num_trials : ℚ) := by exact_mod_cast hpos
  refine ⟨?_, ?_, ?_⟩
  · unfold probability
    rw [div_le_div_iff_of_pos_right hq]
    have hcount : (batch.filter (fun v => decide (t2 ≤ v))).length
        ≤ (batch.filter (fun v => decide (t1 ≤ v))).length := by
      rw [← List.countP_eq_length_filter, ← List.countP_eq_length_filter]
      exact List.countP_mono_left (fun v _ hv => by
        simp only [decide_eq_true_eq] at hv ⊢; exact le_trans ht hv)
    exact_mod_cast hcount
  · exact div_nonneg (by positivity) hq.le
  · unfold probability
    rw [div_le_one hq]
    have hcount : (batch.filter (fun v => decide (t ≤ v))).length ≤ batch.length :=
      List.length_filter_le _ _
    calc ((batch.filter (fun v => decide (t ≤ v))).length : ℚ)
        ≤ (batch.length : ℚ) := by exact_mod_cast hcount
      _ = (num_trials : ℚ) := by exact_mod_cast congrArg (fun z : Int => (z : ℚ)) hlen

/-- C7 witness at concrete inputs. -/
theorem c7_probability_monotone_bounded_witness :
    probability [1, 3] 2 2 ≤ probability [1, 3] 1 2 ∧
    0 ≤ probability [1, 3] 2 2 ∧ probability [1, 3] 2 2 ≤ 1 :=
  c7_probability_monotone_bounded [1, 3] 2 1 2 2 (by norm_num) (by norm_num)
    (by norm_num)

/-- C3 counterexample: an invocation with std < 0 succeeds (no error, no
clamping), and an invocation of the trial pipeline with num_trials = 0
returns an empty batch rather than failing fast. -/
theorem c3_counterexample :
    ((-1 : ℚ) < 0 ∧ generate_return_rates 8 (-1) 5 (fun _ => 0) = .ok [8, 8, 8, 8, 8]) ∧
    ((0 : Int) ≤ 0 ∧ run_trials (fun _ => .ok [1]) 0 = .ok []) := by
  refine ⟨⟨by norm_num, ?_⟩, ⟨le_refl 0, rfl⟩⟩
  norm_num [generate_return_rates, randn, Except.map, List.range_succ,
    Int.toNat_ofNat, List.replicate]

/-- C3 amended: only years < 0 fails (inside numpy's sampler, with numpy's
message); std < 0 is accepted unvalidated and unclamped — the sampled rates
use the negative std exactly — and num_trials ≤ 0 silently yields an empty
batch. -/
theorem c3_amended_no_validation (mean std : ℚ) (years num_trials : Int)
    (noise : ℕ → ℚ) (trial : ℕ → Except String (List ℚ)) :
    (years < 0 → generate_return_rates mean std years noise
        = .error "negative dimensions are not allowed") ∧
    (0 ≤ years → generate_return_rates mean std years noise
        = .ok ((List.range years.toNat).map (fun i => mean + std * noise i))) ∧
    (num_trials ≤ 0 → run_trials trial num_trials = .ok []) := by
  refine ⟨fun h => ?_, fun h => ?_, fun h => ?_⟩
  · unfold generate_return_rates randn
    rw [if_pos h]
    rfl
  · unfold generate_return_rates randn
    rw [if_neg (not_lt.mpr h)]
    simp [Except.map, List.map_map, Function.comp]
  · unfold run_trials
    rw [Int.toNat_of_nonpos h]
    rfl

/-- C3 amended witness at concrete inputs. -/
theorem c3_amended_no_validation_witness :
    generate_return_rates 8 2 (-3) (fun _ => 0) = .error "negative dimensions are not allowed" ∧
    generate_return_rates 8 (-1) 2 (fun _ => 0) = .ok [8, 8] ∧
    run_trials (fun _ => .ok [1]) (-2) = .ok [] :=
  ⟨(c3_amended_no_validation 8 2 (-3) (-2) (fun _ => 0) (fun _ => .ok [1])).1
      (by norm_num),
   by
    have h := (c3_amended_no_validation 8 (-1) 2 (-2) (fun _ => 0)
      (fun _ => .ok [1])).2.1 (by norm_num)
    rw [h]
    norm_num [List.range_succ, Int.toNat_ofNat, List.replicate],
   (c3_amended_no_validation 8 (-1) 2 (-2) (fun _ => 0) (fun _ => .ok [1])).2.2
      (by norm_num)⟩

/-- C9 counterexample: at years = 0 the trial pipeline raises the Python
IndexError from `trajectory[-1]` on the empty trajectory, so the pipeline
that produces per-trial final values does error. -/
theorem c9_counterexample :
    run_trials (fun _ => make_mutual_fund 10 5 0 5500 (fun _ => 0)) 3
      = .error "list index out of range" := by
  rfl

/-- C9 amended: years = 0 is degenerate but only partially benign: the
sampler returns an empty sequence and the accumulator an empty trajectory,
both without error, yet any positive number of trials errors when
extracting each trial's final value from the empty trajectory. -/
theorem c9_amended_empty_trajectory (mean std c p yearly_addition : ℚ)
    (noise : ℕ → ℚ) (num_trials : Int) (hpos : 0 < num_trials) :
    generate_return_rates mean std 0 noise = .ok [] ∧
    calculate_fund_returns c [] p = [] ∧
    run_trials (fun _ => make_mutual_fund mean std 0 yearly_addition noise) num_trials
      = .error "list index out of range" := by
  have hgen : generate_return_rates mean std 0 noise = .ok [] := by
    norm_num [generate_return_rates, randn, Except.map]
  have hmake : make_mutual_fund mean std 0 yearly_addition noise = .ok [] := by
    rw [make_mutual_fund, hgen]
    rfl
  refine ⟨hgen, rfl, ?_⟩
  obtain ⟨k, hk⟩ : ∃ k, num_trials.toNat = k + 1 := ⟨num_trials.toNat - 1, by omega⟩
  have hfirst : (do
      let trajectory ← make_mutual_fund mean std 0 yearly_addition noise
      last_value trajectory)
      = (Except.error "list index out of range" : Except String ℚ) := by
    rw [hmake]
    rfl
  unfold run_trials
  rw [hk, List.range_succ_eq_map, List.mapM_cons]
  rw [hfirst]
  rfl

/-- C9 amended witness at concrete inputs. -/
theorem c9_amended_empty_trajectory_witness :
    generate_return_rates 10 5 0 (fun _ => 0) = .ok [] ∧
    calculate_fund_returns 5500 [] 0 = [] ∧
    run_trials (fun _ => make_mutual_fund 10 5 0 5500 (fun _ => 0)) 2
      = .error "list index out of range" :=
  c9_amended_empty_trajectory 10 5 5500 0 5500 (fun _ => 0) 2 (by norm_num)
